import Mathlib

/-!
Verification of the agri-eye inference and reporting pipeline.

The embedding models `src/app.py`: the static bilingual text tables, the
image preprocessing step (`process_image`), the diagnosis resolution at the
module level (argmax / confidence / label and detail lookup), and the report
renderer (`create_pdf_report`) together with the temporary-file lifecycle of
the image-embedding step.  External effects (PIL decoding and saving, FPDF
cell layout, `pdf.output`, `os.remove`) are modelled by explicit success
flags in `RenderEnv` and an explicit filesystem state `FsState`; numbers are
modelled by `ℚ`.
-/

namespace AgriEye

/-- One entry of `texts[lang]["details"]` in `src/app.py`: the bilingual
description and fertilizer recommendation for one class label. -/
structure DetailRecord where
  en : String
  ar : String
  fertilizer : String
  fertilizer_ar : String
deriving DecidableEq, Repr

/-- `texts["English"]["details"]` (src/app.py lines 81-102), keyed by the
English class label as in the Python dict. -/
def details_English : List (String × DetailRecord) :=
  [ ("Healthy Leaf",
     { en := "The leaf appears healthy with no significant signs of nutrient deficiency."
       ar := "تبدو الورقة سليمة ولا تظهر عليها علامات نقص العناصر الغذائية."
       fertilizer := "No specific fertilization required based on this diagnosis. Maintain standard care."
       fertilizer_ar := "لا يتطلب تسميدًا محددًا بناءً على هذا التشخيص. حافظ على الرعاية القياسية." }),
    ("Nitrogen Deficiency",
     { en := "Nitrogen deficiency typically causes yellowing of older leaves (chlorosis), starting from the tip, and stunted plant growth. Consider using fertilizers high in nitrogen, such as urea or ammonium nitrate."
       ar := "يسبب نقص النيتروجين عادةً اصفرار الأوراق القديمة (الشحوب) بدءًا من الطرف، وتوقف نمو النبات. يُنصح باستخدام أسمدة غنية بالنيتروجين مثل اليوريا أو نترات الأمونيوم."
       fertilizer := "Recommended fertilizer: Urea (46% N) or Ammonium Nitrate (34% N). Follow product instructions carefully."
       fertilizer_ar := "الأسمدة الموصى بها: اليوريا (46% نيتروجين) أو نترات الأمونيوم (34% نيتروجين). اتبع تعليمات المنتج بعناية." }),
    ("Zinc Deficiency",
     { en := "Zinc deficiency often leads to smaller new leaves, yellow spots or bands between veins (interveinal chlorosis), and distorted leaf shapes. Supplement with zinc-containing fertilizers like zinc sulfate, applied to soil or foliage."
       ar := "يؤدي نقص الزنك غالبًا إلى صغر حجم الأوراق الجديدة، وظهور بقع أو خطوط صفراء بين العروق (شحوب بيني)، وتشوه شكل الأوراق. يجب إضافة أسمدة تحتوي على الزنك مثل كبريتات الزنك، تطبق على التربة أو رشًا على الأوراق."
       fertilizer := "Recommended fertilizer: Zinc Sulfate (ZnSO4). Apply as per soil test results or foliar spray guidelines."
       fertilizer_ar := "الأسمدة الموصى بها: كبريتات الزنك (ZnSO4). طبق حسب نتائج تحليل التربة أو إرشادات الرش الورقي." }) ]

/-- The per-language UI string table: the fields of `texts["English"]` and
`texts["Arabic"]` that the pipeline and the report renderer read. -/
structure UIEntry where
  result : String
  confidence : String
  classes : List String
  fertilizer_table_title : String
  fertilizer_table : List (List String)
  download_pdf : String
  report_title : String
  uploaded_image : String
  diagnosis : String
  recommendation : String
  general_recommendations : String
deriving DecidableEq, Repr

/-- `texts["English"]` (src/app.py lines 71-119). -/
def texts_English : UIEntry :=
  { result := "Diagnosis Result:"
    confidence := "Confidence Score"
    classes := ["Healthy Leaf", "Nitrogen Deficiency", "Zinc Deficiency"]
    fertilizer_table_title := "General Fertilization Recommendations for Citrus (Example: Summer Orange)"
    fertilizer_table :=
      [ ["Nutrient", "Recommended Amount (kg/ha/year)"],
        ["Nitrogen (N)", "150 - 200"],
        ["Phosphorus (P2O5)", "60 - 80"],
        ["Potassium (K2O)", "200 - 250"],
        ["Zinc (Zn)", "3 - 5 (Soil) or Foliar Spray"] ]
    download_pdf := "Download English Report (PDF)"
    report_title := "Plant Diagnosis Report"
    uploaded_image := "Uploaded Image"
    diagnosis := "Diagnosis"
    recommendation := "Recommendation"
    general_recommendations := "General Recommendations (Example)" }

/-- `texts["Arabic"]` (src/app.py lines 120-146).  Note the Arabic entry has
no `details` key in the source; details are always read from the English
table. -/
def texts_Arabic : UIEntry :=
  { result := "نتيجة التشخيص:"
    confidence := "درجة الثقة"
    classes := ["ورقة سليمة", "نقص النيتروجين", "نقص الزنك"]
    fertilizer_table_title := "توصيات تسميد عامة للحمضيات (مثال: البرتقال الصيفي)"
    fertilizer_table :=
      [ ["العنصر الغذائي", "الكمية الموصى بها (كجم/هكتار/سنة)"],
        ["النيتروجين (N)", "150 - 200"],
        ["الفوسفور (P2O5)", "60 - 80"],
        ["البوتاسيوم (K2O)", "200 - 250"],
        ["الزنك (Zn)", "3 - 5 (تربة) أو رش ورقي"] ]
    download_pdf := "تحميل التقرير الإنجليزي (PDF)"
    report_title := "Plant Diagnosis Report"
    uploaded_image := "الصورة المرفوعة"
    diagnosis := "التشخيص"
    recommendation := "التوصية"
    general_recommendations := "توصيات عامة (مثال)" }

/-- `texts[lang]` as read by the UI code.  The selectbox restricts `lang` to
the two dict keys; the model totalises the lookup with the English entry for
any other string, matching the `if lang == "Arabic"` tests used everywhere
else in the source. -/
def uiTexts (lang : String) : UIEntry :=
  if lang = "Arabic" then texts_Arabic else texts_English

/-- Field access on a detail record by string key, modelling the inner
`.get(key, "N/A")` on the Python dict for that class. -/
def detailField (r : DetailRecord) (key : String) : Option String :=
  if key = "en" then some r.en
  else if key = "ar" then some r.ar
  else if key = "fertilizer" then some r.fertilizer
  else if key = "fertilizer_ar" then some r.fertilizer_ar
  else none

/-- `texts["English"]["details"].get(label, \x7b\x7d).get(key, "N/A")`
(src/app.py lines 468-469 and 574-575): a missing label or a missing field
defaults to the literal string "N/A". -/
def detailsGet (label key : String) : String :=
  match details_English.find? (fun p => p.1 == label) with
  | some p => (detailField p.2 key).getD "N/A"
  | none => "N/A"

/-- `detail_key = "ar" if st.session_state.lang == "Arabic" else "en"`
(src/app.py line 572). -/
def detail_key (lang : String) : String :=
  if lang = "Arabic" then "ar" else "en"

/-- `fertilizer_key = "fertilizer_ar" if ... == "Arabic" else "fertilizer"`
(src/app.py line 573). -/
def fertilizer_key (lang : String) : String :=
  if lang = "Arabic" then "fertilizer_ar" else "fertilizer"

/-- `np.max` on a nonempty 1-D array, as applied to the prediction row. -/
def npMax : List ℚ → ℚ
  | [] => 0
  | x :: xs => xs.foldl max x

/-- `np.argmax` on a 1-D array: the index of the first occurrence of the
maximum value (numpy first-occurrence tie-breaking). -/
def argmax (l : List ℚ) : ℕ :=
  l.findIdx (fun x => x == npMax l)

/-- `confidence = float(np.max(prediction)) * 100` (src/app.py line 563). -/
def confidence (prediction : List ℚ) : ℚ :=
  npMax prediction * 100

/-- A successfully decoded image after `Image.open(...).convert("RGB")`:
arbitrary dimensions, three 8-bit channels per pixel (the invariant of PIL
RGB mode; grayscale inputs have already been expanded to three channels by
`convert`). -/
structure DecodedImage where
  width : ℕ
  height : ℕ
  pixel : ℕ → ℕ → Fin 256 × Fin 256 × Fin 256

/-- `image.resize((256, 256))`: the resampler itself is PIL-internal; it is
modelled as index-scaling sampling.  Every resampling filter PIL offers
produces, like this one, a 256 by 256 grid of 8-bit RGB pixels, which is the
only property the development relies on. -/
def resize256 (img : DecodedImage) (y x : ℕ) : Fin 256 × Fin 256 × Fin 256 :=
  img.pixel (y * img.height / 256) (x * img.width / 256)

/-- `np.array(image_resized) / 255.0` restricted to one pixel: the three
channel intensities scaled from \x7b0,...,255\x7d to [0,1]. -/
def pixelChannels (p : Fin 256 × Fin 256 × Fin 256) : List ℚ :=
  [(p.1.val : ℚ) / 255, (p.2.1.val : ℚ) / 255, (p.2.2.val : ℚ) / 255]

/-- The tensor built by `process_image` on a decodable image:
`np.expand_dims(np.array(image_resized) / 255.0, axis=0)` — a leading batch
axis of size 1 over a 256 by 256 grid of 3-channel pixel values. -/
def process_image_tensor (img : DecodedImage) : List (List (List (List ℚ))) :=
  [(List.range 256).map (fun y =>
    (List.range 256).map (fun x => pixelChannels (resize256 img y x)))]

/-- `process_image(image_bytes)` (src/app.py lines 370-381): on a decodable
input returns the PIL image and the preprocessed tensor; on undecodable
bytes the exception handler shows an error and returns `(None, None)`. -/
def process_image (decoded : Option DecodedImage) :
    Option DecodedImage × Option (List (List (List (List ℚ)))) :=
  match decoded with
  | some img => (some img, some (process_image_tensor img))
  | none => (none, none)

/-- Decidable well-formedness of the preprocessed tensor: shape
[1,256,256,3] with every value in [0,1]. -/
def tensorWellShaped (t : List (List (List (List ℚ)))) : Bool :=
  t.length == 1 &&
  t.all (fun plane =>
    plane.length == 256 &&
    plane.all (fun row =>
      row.length == 256 &&
      row.all (fun px =>
        px.length == 3 &&
        px.all (fun v => decide (0 ≤ v) && decide (v ≤ 1)))))

/-! ### The report renderer (`create_pdf_report`, src/app.py lines 383-512)

A produced document is modelled as the list of content elements written into
the FPDF object, in order.  Layout-only calls (`ln`, colors, alignment,
margins) are not content and are not recorded; the fonts chosen by the
fallback logic are recorded on each element. -/

/-- One content element of the rendered PDF. -/
inductive PdfElem where
  | cell (font : String) (text : String)
  | multiCell (font : String) (text : String)
  | confCell (font : String) (label : String) (value : ℚ)
  | image
  | tableRow (cells : List String)
deriving DecidableEq, Repr

/-- Success flags for the external effects of one pipeline run:
Roboto font files present on the host, `pil_image.save` succeeding,
`pdf.image` succeeding, the confidence `pdf.cell` succeeding, `pdf.output`
succeeding, and `os.remove` succeeding. -/
structure RenderEnv where
  robotoRegular : Bool
  robotoBold : Bool
  saveOk : Bool
  embedOk : Bool
  confCellOk : Bool
  outputOk : Bool
  removeOk : Bool
deriving DecidableEq, Repr

/-- The host filesystem as the set of existing file paths. -/
structure FsState where
  files : List String
deriving DecidableEq, Repr

/-- The image-embedding step of `create_pdf_report` (src/app.py lines
421-443).  `tempfile.NamedTemporaryFile(delete=False)` creates the scratch
file `tmpName`; `tmp_file_path` is assigned only after `pil_image.save`
succeeds; on any exception the handler writes an error cell instead of the
image; the `finally` block removes the file only when `tmp_file_path` is set
and the file exists, silently ignoring removal errors.  Returns the emitted
elements, the final value of `tmp_file_path`, and the filesystem after the
step. -/
def embedImage (env : RenderEnv) (english_font : String) (tmpName : String)
    (fs : FsState) : List PdfElem × Option String × FsState :=
  let fs1 : FsState := ⟨tmpName :: fs.files⟩
  let step : List PdfElem × Option String :=
    if env.saveOk then
      if env.embedOk then
        ([PdfElem.image], some tmpName)
      else
        ([PdfElem.cell english_font "Error embedding image"], some tmpName)
    else
      ([PdfElem.cell english_font "Error embedding image"], none)
  let fs2 : FsState :=
    match step.2 with
    | some p => if fs1.files.contains p && env.removeOk then ⟨fs1.files.erase p⟩ else fs1
    | none => fs1
  (step.1, step.2, fs2)

/-- `create_pdf_report(pil_image, predicted_class_en, confidence)`
(src/app.py lines 383-512).  The content is always taken from
`texts["English"]` — the function takes no language argument.  Returns the
document when `pdf.output` succeeds, `none` when it raises (in which case
the caller shows a warning and offers no download), together with the
filesystem after the temporary-file lifecycle. -/
def create_pdf_report (env : RenderEnv) (predicted_class_en : String)
    (conf : ℚ) (tmpName : String) (fs : FsState) :
    Option (List PdfElem) × FsState :=
  let default_font := "helvetica"
  let english_font := if env.robotoRegular then "Roboto" else default_font
  let english_bold_font := if env.robotoBold then "Roboto" else default_font
  let pdf_texts := texts_English
  let doc : List PdfElem :=
    [PdfElem.cell english_bold_font pdf_texts.report_title,
     PdfElem.cell english_bold_font pdf_texts.uploaded_image]
  let emb := embedImage env english_font tmpName fs
  let doc := doc ++ emb.1
  let doc := doc ++
    [PdfElem.cell english_bold_font pdf_texts.diagnosis,
     PdfElem.multiCell english_font (pdf_texts.result ++ " " ++ predicted_class_en)]
  let doc := doc ++
    (if env.confCellOk then
      [PdfElem.confCell english_font pdf_texts.confidence conf]
    else
      [PdfElem.cell english_font (pdf_texts.confidence ++ ":"),
       PdfElem.confCell english_font "" conf])
  let details_text := detailsGet predicted_class_en "en"
  let fertilizer_text := detailsGet predicted_class_en "fertilizer"
  let doc := doc ++
    [PdfElem.cell english_bold_font pdf_texts.recommendation,
     PdfElem.multiCell english_font details_text,
     PdfElem.multiCell english_bold_font fertilizer_text,
     PdfElem.cell english_bold_font pdf_texts.general_recommendations,
     PdfElem.cell english_bold_font pdf_texts.fertilizer_table_title]
  let table_data := pdf_texts.fertilizer_table
  let headers := table_data.headD []
  let data_rows := table_data.tail
  let doc := doc ++ [PdfElem.tableRow headers] ++ data_rows.map PdfElem.tableRow
  if env.outputOk then (some doc, emb.2.2) else (none, emb.2.2)

/-- True of the elements recording an embedded image. -/
def isImageElem : PdfElem → Bool
  | PdfElem.image => true
  | _ => false

/-- Number of embedded images in a rendered document. -/
def countImages (doc : List PdfElem) : ℕ :=
  doc.countP isImageElem

/-- The fertilization-table rows of a rendered document, in order. -/
def tableRowsOf (doc : List PdfElem) : List (List String) :=
  doc.filterMap (fun e =>
    match e with
    | PdfElem.tableRow r => some r
    | _ => none)

/-! ### The module-level pipeline (src/app.py lines 538-598) -/

/-- Everything one upload interaction produces: what is shown, the selected
class and confidence, the generated report and download offer, and the
filesystem after the run. -/
structure PipelineResult where
  errorShown : Bool
  classIndex : Option ℕ
  conf : Option ℚ
  displayedClass : Option String
  detailsText : Option String
  fertilizerText : Option String
  pdfDoc : Option (List PdfElem)
  downloadName : Option String
  fsAfter : FsState
  processHalted : Bool
deriving Repr

/-- One run of the module-level pipeline for an uploaded file (src/app.py
lines 538-598): preprocess, predict (the model output `prediction` is the
external inference result), resolve the diagnosis, render the report, and
offer the download only when a PDF was produced.  An undecodable upload
shows an error and produces nothing; the process never halts on a request
error. -/
def runPipeline (lang : String) (decoded : Option DecodedImage)
    (prediction : List ℚ) (env : RenderEnv) (tmpName : String)
    (fs : FsState) : PipelineResult :=
  match process_image decoded with
  | (some _, some _) =>
      let class_index := argmax prediction
      let conf := confidence prediction
      let pred_class_en := texts_English.classes.getD class_index ""
      let pred_class_display := (uiTexts lang).classes.getD class_index ""
      let details_text := detailsGet pred_class_en (detail_key lang)
      let fertilizer_text := detailsGet pred_class_en (fertilizer_key lang)
      let rendered := create_pdf_report env pred_class_en conf tmpName fs
      { errorShown := false
        classIndex := some class_index
        conf := some conf
        displayedClass := some pred_class_display
        detailsText := some details_text
        fertilizerText := some fertilizer_text
        pdfDoc := rendered.1
        downloadName :=
          if rendered.1.isSome then some "plant_diagnosis_report_english.pdf" else none
        fsAfter := rendered.2
        processHalted := false }
  | _ =>
      { errorShown := true
        classIndex := none
        conf := none
        displayedClass := none
        detailsText := none
        fertilizerText := none
        pdfDoc := none
        downloadName := none
        fsAfter := fs
        processHalted := false }

/-- A concrete decodable image used to instantiate the theorems. -/
def sampleImage : DecodedImage :=
  { width := 10, height := 10, pixel := fun _ _ => (0, 0, 0) }

/-- The environment in which every external effect succeeds. -/
def envAllOk : RenderEnv :=
  { robotoRegular := true, robotoBold := true, saveOk := true, embedOk := true,
    confCellOk := true, outputOk := true, removeOk := true }

/-- The environment in which `pdf.image` raises and everything else
succeeds. -/
def envEmbedFail : RenderEnv := { envAllOk with embedOk := false }

/-- The environment in which `pil_image.save` raises and everything else
succeeds. -/
def envSaveFail : RenderEnv := { envAllOk with saveOk := false }

/-! ### Lemmas about `npMax` and `argmax` -/

theorem le_foldl_max (l : List ℚ) (a b : ℚ) (h : a ≤ b) : a ≤ l.foldl max b := by
  induction l generalizing b with
  | nil => simpa using h
  | cons x xs ih => exact ih (max b x) (le_trans h (le_max_left b x))

theorem mem_le_foldl_max (l : List ℚ) (b : ℚ) : ∀ x ∈ l, x ≤ l.foldl max b := by
  induction l generalizing b with
  | nil => intro x hx; cases hx
  | cons y ys ih =>
    intro x hx
    rcases List.mem_cons.mp hx with rfl | hx
    · exact le_foldl_max ys x (max b x) (le_max_right b x)
    · exact ih (max b y) x hx

theorem foldl_max_le (l : List ℚ) (b c : ℚ) (hb : b ≤ c)
    (hl : ∀ x ∈ l, x ≤ c) : l.foldl max b ≤ c := by
  induction l generalizing b with
  | nil => simpa using hb
  | cons y ys ih =>
    exact ih (max b y) (max_le hb (hl y (List.mem_cons_self y ys)))
      (fun x hx => hl x (List.mem_cons_of_mem _ hx))

theorem foldl_max_mem (l : List ℚ) (b : ℚ) : l.foldl max b = b ∨ l.foldl max b ∈ l := by
  induction l generalizing b with
  | nil => left; rfl
  | cons y ys ih =>
    rcases ih (max b y) with h | h
    · rcases max_choice b y with hb | hb
      · left; rw [List.foldl_cons, h, hb]
      · right
        rw [List.foldl_cons, h, hb]
        exact List.mem_cons_self y ys
    · right; exact List.mem_cons_of_mem _ h

theorem npMax_mem (l : List ℚ) (h : l ≠ []) : npMax l ∈ l := by
  cases l with
  | nil => exact absurd rfl h
  | cons x xs =>
    rcases foldl_max_mem xs x with h1 | h1
    · show xs.foldl max x ∈ x :: xs
      rw [h1]
      exact List.mem_cons_self x xs
    · exact List.mem_cons_of_mem _ h1

theorem le_npMax (l : List ℚ) : ∀ x ∈ l, x ≤ npMax l := by
  intro x hx
  cases l with
  | nil => cases hx
  | cons y ys =>
    rcases List.mem_cons.mp hx with rfl | h
    · exact le_foldl_max ys x x le_rfl
    · exact mem_le_foldl_max ys y x h

theorem argmax_lt_length (l : List ℚ) (h : l ≠ []) : argmax l < l.length :=
  List.findIdx_lt_length_of_exists ⟨npMax l, npMax_mem l h, by simp⟩

theorem getD_argmax (l : List ℚ) (h : l ≠ []) : l.getD (argmax l) 0 = npMax l := by
  have hlt : argmax l < l.length := argmax_lt_length l h
  rw [List.getD_eq_getElem l 0 hlt]
  have hp := @List.findIdx_getElem _ (fun x => x == npMax l) l hlt
  simpa [argmax] using hp

theorem getD_lt_argmax (l : List ℚ) (j : ℕ) (hj : j < argmax l) (h : l ≠ []) :
    l.getD j 0 < l.getD (argmax l) 0 := by
  have hlt : argmax l < l.length := argmax_lt_length l h
  have hjl : j < l.length := lt_trans hj hlt
  have hne : ((fun x => x == npMax l) (l[j])) = false :=
    List.not_of_lt_findIdx hj
  rw [List.getD_eq_getElem l 0 hjl, getD_argmax l h]
  have hle : l[j] ≤ npMax l := le_npMax l _ (List.getElem_mem hjl)
  exact lt_of_le_of_ne hle (by simpa using hne)

/-! ### Claim theorems -/

/-- C1: the UI language selection does not influence which class is
selected, the confidence value, the generated PDF document, or the download
filename — two pipeline runs on the same image and model output that differ
only in the selected language agree on all four. -/
theorem c1_language_noninterference (lang₁ lang₂ : String)
    (decoded : Option DecodedImage) (prediction : List ℚ) (env : RenderEnv)
    (tmpName : String) (fs : FsState) :
    (runPipeline lang₁ decoded prediction env tmpName fs).classIndex
      = (runPipeline lang₂ decoded prediction env tmpName fs).classIndex
    ∧ (runPipeline lang₁ decoded prediction env tmpName fs).conf
      = (runPipeline lang₂ decoded prediction env tmpName fs).conf
    ∧ (runPipeline lang₁ decoded prediction env tmpName fs).pdfDoc
      = (runPipeline lang₂ decoded prediction env tmpName fs).pdfDoc
    ∧ (runPipeline lang₁ decoded prediction env tmpName fs).downloadName
      = (runPipeline lang₂ decoded prediction env tmpName fs).downloadName := by
  cases decoded <;> simp [runPipeline, process_image]

/-- C9: an upload whose bytes cannot be decoded as an image surfaces an
error, produces no prediction, no displayed diagnosis, no PDF and no
download offer, leaves the filesystem unchanged, and does not terminate the
process. -/
theorem c9_undecodable_upload_aborts_request (lang : String)
    (prediction : List ℚ) (env : RenderEnv) (tmpName : String) (fs : FsState) :
    (runPipeline lang none prediction env tmpName fs).errorShown = true
    ∧ (runPipeline lang none prediction env tmpName fs).classIndex = none
    ∧ (runPipeline lang none prediction env tmpName fs).conf = none
    ∧ (runPipeline lang none prediction env tmpName fs).displayedClass = none
    ∧ (runPipeline lang none prediction env tmpName fs).pdfDoc = none
    ∧ (runPipeline lang none prediction env tmpName fs).downloadName = none
    ∧ (runPipeline lang none prediction env tmpName fs).fsAfter = fs
    ∧ (runPipeline lang none prediction env tmpName fs).processHalted = false :=
  ⟨rfl, rfl, rfl, rfl, rfl, rfl, rfl, rfl⟩

/-- C5 (counterexample): with image embedding failing and every other
effect succeeding, `create_pdf_report` still returns a PDF byte buffer, so
the claim that no buffer is returned whenever embedding fails is false. -/
theorem c5_counterexample :
    envEmbedFail.embedOk = false
    ∧ ((create_pdf_report envEmbedFail "Healthy Leaf" 95 "tmp.png" ⟨[]⟩).1).isSome = true :=
  ⟨rfl, rfl⟩

/-- C5 (amended): `create_pdf_report` returns no PDF byte buffer exactly
when the final `pdf.output` step fails; an image-embedding failure is caught
and the report is still produced (with an error line in place of the
image). -/
theorem c5_amended_none_iff_output_failure (env : RenderEnv)
    (predicted_class_en : String) (conf : ℚ) (tmpName : String)
    (fs : FsState) :
    (create_pdf_report env predicted_class_en conf tmpName fs).1 = none
      ↔ env.outputOk = false := by
  unfold create_pdf_report
  cases h : env.outputOk <;> simp [h]

/-- C6 (counterexample): for the unsupported language code "French" the
resolver does not fail: it silently selects the English keys and returns the
English description. -/
theorem c6_counterexample :
    detail_key "French" = "en"
    ∧ fertilizer_key "French" = "fertilizer"
    ∧ detailsGet "Healthy Leaf" (detail_key "French")
        = "The leaf appears healthy with no significant signs of nutrient deficiency." :=
  ⟨rfl, rfl, rfl⟩

/-- C6 (amended): every language code other than "Arabic" resolves the
diagnosis record with the English keys — a silent fallback to English, with
no UnsupportedLanguageError anywhere in the code; only the UI selector
restricts the choices to English and Arabic. -/
theorem c6_amended_silent_english_fallback (lang : String)
    (h : lang ≠ "Arabic") :
    detail_key lang = "en"
    ∧ fertilizer_key lang = "fertilizer"
    ∧ ∀ label, detailsGet label (detail_key lang) = detailsGet label "en" := by
  unfold detail_key fertilizer_key
  simp [h]

/-- Witness for the amended C6 at the concrete language code "French". -/
theorem c6_witness :
    ("French" ≠ "Arabic")
    ∧ (detail_key "French" = "en"
       ∧ fertilizer_key "French" = "fertilizer"
       ∧ ∀ label, detailsGet label (detail_key "French") = detailsGet label "en") :=
  ⟨by decide, c6_amended_silent_english_fallback "French" (by decide)⟩

/-- C7: evaluation at the failing input.  When `pil_image.save` raises, the
scratch file created by `NamedTemporaryFile(delete=False)` is still on disk
after the pipeline run (`tmp_file_path` was never assigned, so the `finally`
block skips removal); when save, embedding and removal all succeed the file
is gone. -/
theorem c7_scratch_file_leak :
    (runPipeline "English" (some sampleImage) [1, 0, 0] envSaveFail
        "scratch.png" ⟨[]⟩).fsAfter.files = ["scratch.png"]
    ∧ (runPipeline "English" (some sampleImage) [1, 0, 0] envAllOk
        "scratch.png" ⟨[]⟩).fsAfter.files = [] :=
  ⟨rfl, rfl⟩

/-- C2 (counterexample): under the stated precondition alone — a length-3
vector of non-negative entries — the computed confidence can exceed 100: on
the vector [2, 0, 0] it is 200. -/
theorem c2_counterexample :
    (([2, 0, 0] : List ℚ).length = 3 ∧ ∀ x ∈ ([2, 0, 0] : List ℚ), 0 ≤ x)
    ∧ confidence [2, 0, 0] = 200
    ∧ ¬ confidence [2, 0, 0] ≤ 100 := by
  refine ⟨⟨by decide, by decide⟩, ?_, ?_⟩ <;>
    norm_num [confidence, npMax, max_def]

/-- C2 (amended): the confidence always equals 100 times the maximum entry
of the prediction vector; it lies in [0, 100] for a length-3 vector whose
entries are non-negative and, additionally, at most 1 (a genuine probability
vector). -/
theorem c2_amended_confidence_bounds (prediction : List ℚ)
    (h3 : prediction.length = 3) (h0 : ∀ x ∈ prediction, 0 ≤ x)
    (h1 : ∀ x ∈ prediction, x ≤ 1) :
    confidence prediction = 100 * npMax prediction
    ∧ 0 ≤ confidence prediction
    ∧ confidence prediction ≤ 100 := by
  obtain ⟨a, rest, rfl⟩ : ∃ a rest, prediction = a :: rest := by
    cases prediction with
    | nil => simp at h3
    | cons a r => exact ⟨a, r, rfl⟩
  have hmax0 : 0 ≤ npMax (a :: rest) :=
    le_trans (h0 a (List.mem_cons_self a rest)) (le_foldl_max rest a a le_rfl)
  have hmax1 : npMax (a :: rest) ≤ 1 :=
    foldl_max_le rest a 1 (h1 a (List.mem_cons_self a rest))
      (fun x hx => h1 x (List.mem_cons_of_mem _ hx))
  refine ⟨mul_comm _ _, ?_, ?_⟩
  · exact mul_nonneg hmax0 (by norm_num)
  · calc npMax (a :: rest) * 100 ≤ 1 * 100 :=
          mul_le_mul_of_nonneg_right hmax1 (by norm_num)
      _ = 100 := by norm_num

/-- Witness for the amended C2 at the concrete prediction [1, 0, 0]. -/
theorem c2_witness :
    (([1, 0, 0] : List ℚ).length = 3
     ∧ (∀ x ∈ ([1, 0, 0] : List ℚ), 0 ≤ x)
     ∧ (∀ x ∈ ([1, 0, 0] : List ℚ), x ≤ 1))
    ∧ (confidence [1, 0, 0] = 100 * npMax [1, 0, 0]
       ∧ 0 ≤ confidence [1, 0, 0]
       ∧ confidence [1, 0, 0] ≤ 100) :=
  ⟨⟨by decide, by decide, by decide⟩,
   c2_amended_confidence_bounds [1, 0, 0] (by decide) (by decide) (by decide)⟩

/-- C3: the diagnosis step selects the index of the maximum prediction
entry, ties broken by the first occurrence (every earlier entry is strictly
smaller, every entry is at most the selected one), and maps the index to the
class label of the selected UI language; index 0 yields "Healthy Leaf" in
English and its Arabic counterpart in Arabic. -/
theorem c3_argmax_semantics_and_labels (prediction : List ℚ)
    (h3 : prediction.length = 3) :
    argmax prediction < 3
    ∧ (∀ j, j < 3 →
        prediction.getD j 0 ≤ prediction.getD (argmax prediction) 0)
    ∧ (∀ j, j < argmax prediction →
        prediction.getD j 0 < prediction.getD (argmax prediction) 0)
    ∧ (∀ env tmpName fs,
        (runPipeline "English" (some sampleImage) prediction env tmpName fs).displayedClass
          = some (texts_English.classes.getD (argmax prediction) "")
        ∧ (runPipeline "Arabic" (some sampleImage) prediction env tmpName fs).displayedClass
          = some (texts_Arabic.classes.getD (argmax prediction) ""))
    ∧ texts_English.classes.getD 0 "" = "Healthy Leaf"
    ∧ texts_Arabic.classes.getD 0 "" = "ورقة سليمة" := by
  have hne : prediction ≠ [] := by
    intro hnil
    rw [hnil] at h3
    simp at h3
  have hlt : argmax prediction < prediction.length := argmax_lt_length prediction hne
  refine ⟨h3 ▸ hlt, ?_, ?_, ?_, rfl, rfl⟩
  · intro j hj
    have hjl : j < prediction.length := h3 ▸ hj
    rw [List.getD_eq_getElem prediction 0 hjl, getD_argmax prediction hne]
    exact le_npMax prediction _ (List.getElem_mem hjl)
  · intro j hj
    exact getD_lt_argmax prediction j hj hne
  · intro env tmpName fs
    constructor <;> simp [runPipeline, process_image, uiTexts]

/-- Witness for C3 at the concrete prediction [1/2, 1/4, 1/4]. -/
theorem c3_witness :
    (([1/2, 1/4, 1/4] : List ℚ).length = 3)
    ∧ (argmax [1/2, 1/4, 1/4] < 3
       ∧ (∀ j, j < 3 →
           ([1/2, 1/4, 1/4] : List ℚ).getD j 0
             ≤ ([1/2, 1/4, 1/4] : List ℚ).getD (argmax [1/2, 1/4, 1/4]) 0)
       ∧ (∀ j, j < argmax ([1/2, 1/4, 1/4] : List ℚ) →
           ([1/2, 1/4, 1/4] : List ℚ).getD j 0
             < ([1/2, 1/4, 1/4] : List ℚ).getD (argmax [1/2, 1/4, 1/4]) 0)
       ∧ (∀ env tmpName fs,
           (runPipeline "English" (some sampleImage) [1/2, 1/4, 1/4] env tmpName fs).displayedClass
             = some (texts_English.classes.getD (argmax [1/2, 1/4, 1/4]) "")
           ∧ (runPipeline "Arabic" (some sampleImage) [1/2, 1/4, 1/4] env tmpName fs).displayedClass
             = some (texts_Arabic.classes.getD (argmax [1/2, 1/4, 1/4]) ""))
       ∧ texts_English.classes.getD 0 "" = "Healthy Leaf"
       ∧ texts_Arabic.classes.getD 0 "" = "ورقة سليمة") :=
  ⟨by decide, c3_argmax_semantics_and_labels [1/2, 1/4, 1/4] (by decide)⟩

/-- C4: on every decodable image, of arbitrary dimensions and color mode,
the preprocessed tensor has exact shape [1, 256, 256, 3] and every entry
lies in [0, 1]. -/
theorem c4_preprocess_shape_and_range (img : DecodedImage) :
    tensorWellShaped (process_image_tensor img) = true := by
  have hbound : ∀ c : Fin 256, 0 ≤ ((c.val : ℚ) / 255) ∧ ((c.val : ℚ) / 255) ≤ 1 := by
    intro c
    constructor
    · exact div_nonneg (Nat.cast_nonneg c.val) (by norm_num)
    · rw [div_le_one (by norm_num)]
      exact le_trans (Nat.cast_le.mpr (Fin.is_le c)) (by norm_num)
  unfold tensorWellShaped process_image_tensor
  simp only [List.all_cons, List.all_nil, List.length_cons, List.length_nil,
    Bool.and_true, List.all_eq_true, List.mem_map, List.mem_range,
    List.length_map, List.length_range, beq_self_eq_true, Bool.true_and,
    Bool.and_eq_true, beq_iff_eq, decide_eq_true_eq]
  rintro row ⟨y, hy, rfl⟩
  refine ⟨by simp, ?_⟩
  rintro px hpx
  simp only [List.mem_map, List.mem_range] at hpx
  obtain ⟨x, hx, rfl⟩ := hpx
  refine ⟨rfl, ?_⟩
  intro v hv
  simp only [pixelChannels, List.mem_cons, List.not_mem_nil, or_false] at hv
  rcases hv with rfl | rfl | rfl
  · exact hbound (resize256 img y x).1
  · exact hbound (resize256 img y x).2.1
  · exact hbound (resize256 img y x).2.2

/-- C8 (counterexample): with image embedding failing and every other
effect succeeding, the report is still generated — and it contains zero
embedded images, not exactly one. -/
theorem c8_counterexample :
    envEmbedFail.embedOk = false
    ∧ ((create_pdf_report envEmbedFail "Healthy Leaf" 95 "tmp.png" ⟨[]⟩).1.map countImages)
        = some 0
    ∧ ¬ ((create_pdf_report envEmbedFail "Healthy Leaf" 95 "tmp.png" ⟨[]⟩).1.map countImages)
        = some 1 := by
  refine ⟨rfl, rfl, ?_⟩
  intro h
  rw [show ((create_pdf_report envEmbedFail "Healthy Leaf" 95 "tmp.png" ⟨[]⟩).1.map countImages)
        = some 0 from rfl] at h
  simp at h

/-- C8 (amended): every successfully generated report contains exactly one
fertilization table — its rows are exactly the 5 rows (one header plus four
data rows) of the static English reference table — regardless of UI
language; it contains exactly one embedded image when the image save and
embedding both succeed, and none (an error line instead) otherwise. -/
theorem c8_amended_report_contents (lang : String)
    (decoded : Option DecodedImage) (prediction : List ℚ) (env : RenderEnv)
    (tmpName : String) (fs : FsState) (doc : List PdfElem)
    (h : (runPipeline lang decoded prediction env tmpName fs).pdfDoc = some doc) :
    tableRowsOf doc = texts_English.fertilizer_table
    ∧ texts_English.fertilizer_table.length = 5
    ∧ countImages doc = (if env.saveOk && env.embedOk then 1 else 0) := by
  cases decoded with
  | none => simp [runPipeline, process_image] at h
  | some img =>
    rw [runPipeline] at h
    simp only [process_image] at h
    rw [create_pdf_report] at h
    cases houtput : env.outputOk <;> rw [houtput] at h
    · simp at h
    · simp only [if_true] at h
      injection h with h
      subst h
      cases hsave : env.saveOk <;> cases hembed : env.embedOk <;>
        cases hconf : env.confCellOk <;>
        simp [embedImage, hsave, hembed, hconf, tableRowsOf, countImages,
          isImageElem, texts_English]

/-- Witness for the amended C8 at a concrete Arabic-language run in which
every effect succeeds. -/
theorem c8_witness :
    ((runPipeline "Arabic" (some sampleImage) [1, 0, 0] envAllOk "t.png" ⟨[]⟩).pdfDoc
       = some ((runPipeline "Arabic" (some sampleImage) [1, 0, 0] envAllOk "t.png" ⟨[]⟩).pdfDoc.getD []))
    ∧ (tableRowsOf ((runPipeline "Arabic" (some sampleImage) [1, 0, 0] envAllOk "t.png" ⟨[]⟩).pdfDoc.getD [])
         = texts_English.fertilizer_table
       ∧ texts_English.fertilizer_table.length = 5
       ∧ countImages ((runPipeline "Arabic" (some sampleImage) [1, 0, 0] envAllOk "t.png" ⟨[]⟩).pdfDoc.getD [])
         = (if envAllOk.saveOk && envAllOk.embedOk then 1 else 0)) :=
  ⟨rfl, c8_amended_report_contents "Arabic" (some sampleImage) [1, 0, 0]
    envAllOk "t.png" ⟨[]⟩ _ rfl⟩

/-- C10: for every predicted class label absent from the static details
table, the description and fertilizer lookups default to the literal string
"N/A" for every requested field instead of raising, and PDF report
generation still completes (whenever the final output step itself
succeeds). -/
theorem c10_missing_label_defaults_na (label : String) (env : RenderEnv)
    (conf : ℚ) (tmpName : String) (fs : FsState)
    (hlabel : label ∉ details_English.map Prod.fst)
    (houtput : env.outputOk = true) :
    (∀ key, detailsGet label key = "N/A")
    ∧ ((create_pdf_report env label conf tmpName fs).1).isSome = true := by
  have hfind : details_English.find? (fun p => p.1 == label) = none := by
    rw [List.find?_eq_none]
    intro p hp
    simp only [beq_iff_eq]
    intro hq
    exact hlabel (List.mem_map.mpr ⟨p, hp, hq⟩)
  constructor
  · intro key
    rw [detailsGet, hfind]
  · rw [create_pdf_report]
    simp [houtput]

/-- Witness for C10 at the concrete unknown label "Unknown". -/
theorem c10_witness :
    ("Unknown" ∉ details_English.map Prod.fst ∧ envAllOk.outputOk = true)
    ∧ ((∀ key, detailsGet "Unknown" key = "N/A")
       ∧ ((create_pdf_report envAllOk "Unknown" 50 "t.png" ⟨[]⟩).1).isSome = true) :=
  ⟨⟨by decide, rfl⟩,
   c10_missing_label_defaults_na "Unknown" envAllOk 50 "t.png" ⟨[]⟩ (by decide) rfl⟩

end AgriEye
